import Mathlib

/-!
Verification development for the moneata-core-migration repository.

The repository contains two Python scripts that convert one fixed PDF
document into a Markdown file:

  final_pdf_converter.py   with functions extract_and_clean_text,
    clean_and_structure_text, format_as_proper_markdown,
    manual_content_fixes and main;
  scripts/pdf_converter.py with functions extract_text_preserve_structure,
    create_structured_markdown and main.

The development below is a shallow embedding of those scripts.  Python
strings are modelled by Lean String; the Python string operations used by
the code (strip, split, join, startswith, the in operator) are modelled by
executable helper functions defined over the underlying character lists, so
that every definition evaluates by kernel reduction.  The handful of fixed
regular expressions appearing in the scripts are modelled by dedicated
executable recognisers whose semantics is derived from the concrete pattern
(each recogniser carries a comment with the pattern it models).  The
interaction with the pdfplumber library is modelled by an explicit input
describing the outcome of opening the PDF, and the file system effects of
main are modelled by explicit state passing.
-/

/-! ## Boolean list primitives (Python string operations) -/

/-- Whitespace class used by Python str.strip and by the regex class
backslash-s: space, tab, newline, carriage return, vertical tab, form
feed. -/
def pyWs (c : Char) : Bool :=
  c == ' ' || c == '\t' || c == '\n' || c == '\r' || c == '\x0b' || c == '\x0c'

/-- Boolean test that the first list is a prefix of the second. -/
def prefixB : List Char → List Char → Bool
  | [], _ => true
  | _ :: _, [] => false
  | a :: as, b :: bs => a == b && prefixB as bs

/-- Boolean test that the first list occurs as a contiguous segment of the
second; models the Python operator in on strings. -/
def infixB (n : List Char) : List Char → Bool
  | [] => n.isEmpty
  | c :: t => prefixB n (c :: t) || infixB n t

/-- Python str.strip: drop the whitespace prefix and the whitespace
suffix. -/
def stripL (l : List Char) : List Char :=
  ((l.dropWhile pyWs).reverse.dropWhile pyWs).reverse

/-- Python str.split with a non-empty separator: cut at each
non-overlapping occurrence of the separator, scanning left to right.  The
empty-separator case (an error in Python) is mapped to the singleton
result. -/
def splitL (sep : List Char) (l : List Char) : List (List Char) :=
  if hsep : sep = [] then [l]
  else
    match l with
    | [] => [[]]
    | c :: rest =>
      if prefixB sep (c :: rest) then
        [] :: splitL sep ((c :: rest).drop sep.length)
      else
        match splitL sep rest with
        | [] => [[c]]
        | h :: t => (c :: h) :: t
termination_by l.length
decreasing_by
  · have h1 : 0 < sep.length := List.length_pos.mpr hsep
    simp only [List.length_cons, List.length_drop]
    omega
  · simp only [List.length_cons]
    omega

/-- Python sep.join. -/
def joinL (sep : List Char) : List (List Char) → List Char
  | [] => []
  | [x] => x
  | x :: y :: t => x ++ sep ++ joinL sep (y :: t)

/-! ## String wrappers -/

/-- Python line.strip(). -/
def pyStrip (s : String) : String := ⟨stripL s.data⟩

/-- Python s.startswith(pre). -/
def pyStartsWith (s pre : String) : Bool := prefixB pre.data s.data

/-- Python needle in hay. -/
def pyContains (hay needle : String) : Bool := infixB needle.data hay.data

/-- Python s.split(sep). -/
def pySplit (sep s : String) : List String := (splitL sep.data s.data).map String.mk

/-- Python sep.join(parts). -/
def pyJoin (sep : String) (parts : List String) : String :=
  ⟨joinL sep.data (parts.map String.data)⟩

/-- Containment of one string in another as a proposition: the data of the
needle occurs as a contiguous segment of the data of the haystack. -/
def containsL (hay needle : String) : Prop :=
  ∃ p q, hay.data = p ++ needle.data ++ q

/-! ## Regular-expression recognisers used by the scripts -/

/-- Model of the pattern caret backslash-d plus dollar from
clean_and_structure_text: the whole line is one or more decimal digits.
After stripping, a line cannot end with a newline, so the dollar anchor is
plain end of string here. -/
def reAllDigits (l : List Char) : Bool :=
  !l.isEmpty && l.all Char.isDigit

/-- Capture of the tail part backslash-s star followed by a dot-plus group
shared by the two section patterns.  The star is greedy with backtracking:
if at least one character remains after the whitespace run, the group is
the maximal run of non-newline characters that follows; otherwise the
engine backs off inside the whitespace run and the group is the last
whitespace character that is not a newline, when one exists. -/
def reTailCapture (rem : List Char) : Option (List Char) :=
  let t := rem.dropWhile pyWs
  if t.isEmpty then
    match (rem.takeWhile pyWs).reverse.dropWhile (fun c => c == '\n') with
    | [] => none
    | c :: _ => some [c]
  else
    some (t.takeWhile (fun c => !(c == '\n')))

/-- Model of re.match with pattern: caret, group of one or more digits, a
literal dot, backslash-s star, group of dot-plus.  Returns the two
captured groups. -/
def reSection (l : List Char) : Option (List Char × List Char) :=
  let ds := l.takeWhile Char.isDigit
  if ds.isEmpty then none
  else
    match l.dropWhile Char.isDigit with
    | '.' :: rem =>
      match reTailCapture rem with
      | some title => some (ds, title)
      | none => none
    | _ => none

/-- Model of re.match with pattern: caret, group of digits dot digits, a
literal dot, backslash-s star, group of dot-plus.  Returns the two
captured groups; the first group contains the inner dot. -/
def reSubSection (l : List Char) : Option (List Char × List Char) :=
  let ds1 := l.takeWhile Char.isDigit
  if ds1.isEmpty then none
  else
    match l.dropWhile Char.isDigit with
    | '.' :: r1 =>
      let ds2 := r1.takeWhile Char.isDigit
      if ds2.isEmpty then none
      else
        match r1.dropWhile Char.isDigit with
        | '.' :: rem =>
          match reTailCapture rem with
          | some title => some (ds1 ++ '.' :: ds2, title)
          | none => none
        | _ => none
    | _ => none

/-- ASCII upper-case letter, the class A to Z. -/
def isUpperAscii (c : Char) : Bool := 'A' ≤ c && c ≤ 'Z'

/-- ASCII lower-case letter, the class a to z. -/
def isLowerAscii (c : Char) : Bool := 'a' ≤ c && c ≤ 'z'

/-- Letter or whitespace, the class a to z, A to Z, backslash-s. -/
def isAlphaWs (c : Char) : Bool := isUpperAscii c || isLowerAscii c || pyWs c

/-- Model of re.match with pattern: caret, one upper-case letter, one or
more letters or whitespace, a colon, dollar.  The dollar anchor accepts
end of string or a position just before a final newline, so the line must
end with a colon or with a colon followed by one final newline. -/
def reTechLabel (l : List Char) : Bool :=
  match l with
  | [] => false
  | c :: rest =>
    let core := match rest.getLast? with
      | some '\n' => rest.dropLast
      | _ => rest
    isUpperAscii c &&
      (match core.getLast? with
       | some ':' => !core.dropLast.isEmpty && core.dropLast.all isAlphaWs
       | _ => false)

/-- Model of re.match with pattern: caret, one or more digits, a literal
dot, one or more whitespace characters. -/
def reNumList (l : List Char) : Bool :=
  let ds := l.takeWhile Char.isDigit
  !ds.isEmpty &&
    (match l.dropWhile Char.isDigit with
     | '.' :: c :: _ => pyWs c
     | _ => false)

/-- Model of re.match with pattern: caret, one lower-case letter, a
literal dot, one or more whitespace characters. -/
def reAlphaList (l : List Char) : Bool :=
  match l with
  | a :: '.' :: c :: _ => isLowerAscii a && pyWs c
  | _ => false

/-- Model of re.match with pattern: caret, one or more digits, one or more
whitespace characters, then one of the literals participant, alt, else,
end. -/
def reParticipant (l : List Char) : Bool :=
  let ds := l.takeWhile Char.isDigit
  let r1 := l.dropWhile Char.isDigit
  let w := r1.takeWhile pyWs
  let r2 := r1.dropWhile pyWs
  !ds.isEmpty && !w.isEmpty &&
    (prefixB "participant".data r2 || prefixB "alt".data r2 ||
     prefixB "else".data r2 || prefixB "end".data r2)

/-! ## Shared constants of the two scripts -/

/-- Hardcoded input path used by both scripts. -/
def pdf_file : String :=
  "docs/adr/MoPrd-ADR-015_ Moneta Network Authentication and Identification-300625-052159.pdf"

/-- Hardcoded output path used by both scripts. -/
def output_file : String := "docs/adr/ADR-015_MonetaNetworkAuthentication.md"

/-- Outcome of the interaction with the pdfplumber library inside the try
block: either an exception with its message, or the list of per-page
results of page.extract_text(), where none stands for the Python value
None. -/
def PdfOutcome : Type := Except String (List (Option String))

/-- Python truthiness of a page.extract_text() result: None and the empty
string are falsy. -/
def pageTruthy : Option String → Bool
  | none => false
  | some s => !s.isEmpty

/-! ## final_pdf_converter.py -/

/-- Embedding of extract_and_clean_text.  The returned pair is the
accumulated text and the list of printed messages.  The outcome of the
pdfplumber interaction is taken atomically: on an exception the function
prints the error line and returns the empty string; messages printed
before the point of failure are not tracked. -/
def extract_and_clean_text (o : PdfOutcome) : String × List String :=
  match o with
  | .error e => ("", ["Error extracting text: " ++ e])
  | .ok pages =>
    (pages.foldl (fun acc p => if pageTruthy p then acc ++ p.getD "" ++ "\n\n" else acc) "",
     ("Processing " ++ toString pages.length ++ " pages...") ::
       (List.range pages.length).map (fun i => "Processing page " ++ toString (i + 1) ++ "..."))

/-- Embedding of clean_and_structure_text: split into chunks on blank
lines, skip chunks that strip to nothing, split each chunk into lines,
strip each line, skip empty lines and pure page-number lines, and collect
the rest. -/
def clean_and_structure_text (text : String) : List String :=
  ((pySplit "\n\n" text).map (fun chunk =>
    if pyStrip chunk = "" then []
    else (pySplit "\n" chunk).filterMap (fun line0 =>
      let line := pyStrip line0
      if line = "" then none
      else if reAllDigits line.data then none
      else some line))).flatten

/-- Keyword list header_keywords of format_as_proper_markdown. -/
def headerKeywords : List String :=
  ["Current Challenges & Requirements:", "Goals:", "Use Cases:", "Narrative:",
   "Key Components of the Decision:", "Pros:", "Cons:", "Risks & Mitigations:",
   "Overall Solution:", "QR Code Authentication:", "OTP to mPass App Authentication:",
   "Human-Friendly Identifiers:", "Tier and Billing Management Security:",
   "Open Issues / Next Steps", "Story Definition"]

/-- Condition of the look-ahead loop inside the sequence-diagram branch,
applied to the raw (unstripped) following lines. -/
def lookCond (s : String) : Bool :=
  pyContains s "->" || pyContains s "-->" || reParticipant s.data || pyContains s "Note over"

/-- Condition that sends the current stripped line into the
sequence-diagram branch. -/
def diagCond (s : String) : Bool :=
  pyContains s "sequenceDiagram" || reParticipant s.data ||
    pyContains s "->" || pyContains s "-->"

/-- Condition of the list-item branch.  The three mojibake characters are
the bullet literal that appears in the source. -/
def listItemCond (line : String) : Bool :=
  pyStartsWith line "- " || pyStartsWith line "â€¢ " ||
    reNumList line.data || reAlphaList line.data

/-- Body of the while loop of format_as_proper_markdown, producing the
list markdown_content without the two fixed opening elements.  The index
jumps of the Python loop are modelled by recursing on the unprocessed
suffix of the input; the sequence-diagram look-ahead consumes the maximal
run of following lines satisfying lookCond. -/
def fmtLoop : List String → List String
  | [] => []
  | raw :: rest =>
    let line := pyStrip raw
    if line = "" then fmtLoop rest
    else if pyContains line "ADR-015" && pyContains line "Moneta Network Authentication" then
      fmtLoop rest
    else if pyStartsWith line "Status:" then ("**" ++ line ++ "**") :: "" :: fmtLoop rest
    else if pyStartsWith line "Date:" then ("**" ++ line ++ "**") :: "" :: fmtLoop rest
    else
      match reSection line.data with
      | some (num, title) =>
        ("## " ++ String.mk num ++ ". " ++ String.mk title) :: "" :: fmtLoop rest
      | none =>
      match reSubSection line.data with
      | some (num, title) =>
        ("### " ++ String.mk num ++ ". " ++ String.mk title) :: "" :: fmtLoop rest
      | none =>
      if headerKeywords.any (fun k => pyStartsWith line k) then
        ("### " ++ line) :: "" :: fmtLoop rest
      else if reTechLabel line.data ∧ line.data.length < 50 then
        ("#### " ++ line) :: "" :: fmtLoop rest
      else if listItemCond line then line :: fmtLoop rest
      else if diagCond line then
        if pyContains line "sequenceDiagram" then
          "```mermaid" :: line ::
            (rest.takeWhile lookCond ++ "```" :: "" :: fmtLoop (rest.dropWhile lookCond))
        else
          line :: (rest.takeWhile lookCond ++ fmtLoop (rest.dropWhile lookCond))
      else line :: "" :: fmtLoop rest
termination_by l => l.length
decreasing_by
  all_goals simp only [List.length_cons]
  all_goals first
    | omega
    | (have h1 := (List.dropWhile_sublist lookCond (l := rest)).length_le; omega)

/-- List of lines assembled by format_as_proper_markdown in
markdown_content before the final join. -/
def format_as_proper_markdown_lines (lines : List String) : List String :=
  "# ADR-015: Moneta Network Authentication and Identification" :: "" :: fmtLoop lines

/-- Embedding of format_as_proper_markdown: the assembled lines joined
with newlines. -/
def format_as_proper_markdown (lines : List String) : String :=
  pyJoin "\n" (format_as_proper_markdown_lines lines)

/-- Replacement helper modelling re.sub with a pattern of the shape
literal prefix, lazy dot-star with DOTALL, literal suffix: chopAfter
returns the remainder of the list after the first occurrence of the given
suffix literal, or none when the suffix does not occur. -/
def chopAfter (suf : List Char) : List Char → Option (List Char)
  | [] => if suf.isEmpty then some [] else none
  | c :: rest =>
    if prefixB suf (c :: rest) then some ((c :: rest).drop suf.length)
    else chopAfter suf rest

/-- The remainder returned by chopAfter is never longer than the input. -/
theorem chopAfter_length_le (suf : List Char) :
    ∀ (l r : List Char), chopAfter suf l = some r → r.length ≤ l.length := by
  intro l
  induction l with
  | nil =>
    intro r h
    simp only [chopAfter] at h
    by_cases hs : suf.isEmpty
    · simp [hs] at h
      simp [h.symm]
    · simp [hs] at h
  | cons c rest ih =>
    intro r h
    simp only [chopAfter] at h
    by_cases hp : prefixB suf (c :: rest) = true
    · simp only [hp, if_true, Option.some.injEq] at h
      subst h
      simp only [List.length_drop, List.length_cons]
      omega
    · simp only [hp] at h
      have := ih r h
      simp only [List.length_cons]
      omega

/-- Model of re.sub for a pattern consisting of a literal prefix, a lazy
dot-star in DOTALL mode and a literal suffix: scanning left to right, each
leftmost match (the prefix followed by the shortest extension reaching the
suffix) is replaced by rep and scanning resumes after the match.  When the
suffix literal is the empty list the pattern degenerates to the plain
literal prefix, which models the third, purely literal substitution of
manual_content_fixes.  A vacuous guard excludes the empty prefix, which
does not occur in the source. -/
def subScan (pre suf rep : List Char) : List Char → List Char
  | [] => []
  | c :: rest =>
    if h : prefixB pre (c :: rest) = true /\ pre ≠ [] then
      match hm : chopAfter suf ((c :: rest).drop pre.length) with
      | some tail => rep ++ subScan pre suf rep tail
      | none => c :: subScan pre suf rep rest
    else c :: subScan pre suf rep rest
termination_by l => l.length
decreasing_by
  · have h1 : 0 < pre.length := List.length_pos.mpr h.2
    have h2 := chopAfter_length_le suf _ _ hm
    simp only [List.length_drop, List.length_cons] at h2 ⊢
    omega
  · simp only [List.length_cons]; omega
  · simp only [List.length_cons]; omega

/-- Termination helper: dropWhile never lengthens a list. -/
theorem length_dropWhileLe (p : Char → Bool) (l : List Char) :
    (l.dropWhile p).length ≤ l.length :=
  (List.dropWhile_sublist p).length_le

/-- Model of re.sub with the pattern newline repeated three or more times
and the replacement of two newlines: each leftmost maximal run of at least
three newlines is collapsed to exactly two. -/
def collapse3 : List Char → List Char
  | [] => []
  | c :: rest =>
    if c = '\n' /\ rest.take 2 = ['\n', '\n'] then
      '\n' :: '\n' :: collapse3 (rest.dropWhile (fun x => x == '\n'))
    else c :: collapse3 rest
termination_by l => l.length
decreasing_by
  all_goals simp only [List.length_cons]
  all_goals first
    | omega
    | exact Nat.lt_succ_of_le (length_dropWhileLe _ _)

/-- First substitution of manual_content_fixes: pattern prefix. -/
def fix1_pre : String := "Authentication: Design a secure OIDC-based"

/-- First substitution of manual_content_fixes: pattern suffix. -/
def fix1_suf : String := "publisher groups."

/-- First substitution of manual_content_fixes: replacement text. -/
def fix1_rep : String := "#### Authentication:\nDesign a secure OIDC-based passwordless authentication system managed by Moneta Core, using AWS Cognito, Lambda, DynamoDB, and API Gateway. Common flows involve users clicking a \"Login with Moneta mPass\" button on Publisher sites/apps, redirecting to Moneta Core\x27s hosted UI, authenticating via their mPass mobile app (QR scan, OTP), and then being redirected back to the Publisher with OIDC tokens. The system must support session management, token revocation, refresh tokens, and SSO for publisher groups."

/-- Second substitution of manual_content_fixes: pattern prefix. -/
def fix2_pre : String := "Identification: The current UUIDv4 identifiers"

/-- Second substitution of manual_content_fixes: pattern suffix. -/
def fix2_suf : String := "and security."

/-- Second substitution of manual_content_fixes: replacement text. -/
def fix2_rep : String := "#### Identification:\nThe current UUIDv4 identifiers for MOs, Publishers, and mPasses (MO UUID + User UUID) are not human-friendly. A new coding/alias scheme is needed, supporting global scale, high availability, performance, and security."

/-- Third substitution of manual_content_fixes: a purely literal pattern
whose replacement is the identical text. -/
def fix3_lit : String := "Beyond the initial login, the system supports:"

/-- Embedding of manual_content_fixes: the three regex substitutions in
order, then the collapse of runs of three or more newlines into two. -/
def manual_content_fixes (content : String) : String :=
  let c1 := subScan fix1_pre.data fix1_suf.data fix1_rep.data content.data
  let c2 := subScan fix2_pre.data fix2_suf.data fix2_rep.data c1
  let c3 := subScan fix3_lit.data [] fix3_lit.data c2
  String.mk (collapse3 c3)

/-- File-system state: contents indexed by path. -/
def FS : Type := String → Option String

/-- Embedding of main of final_pdf_converter.py.  The result is the file
system after the run together with the exit status, where some 1 models
sys.exit(1) and none a normal return.  Existence of the input PDF is read
from the file system; the outcome of the pdfplumber interaction is the
explicit second argument. -/
def final_main (fs : FS) (o : PdfOutcome) : FS × Option Nat :=
  if (fs pdf_file).isNone then (fs, some 1)
  else
    let raw := (extract_and_clean_text o).1
    if pyStrip raw = "" then (fs, some 1)
    else
      let lines := clean_and_structure_text raw
      let md := format_as_proper_markdown lines
      let md2 := manual_content_fixes md
      (fun p => if p = output_file then some md2 else fs p, none)

/-- Whole-process model of final_pdf_converter.py: the script reads
neither sys.argv nor os.environ, so the command line and the environment
are extra arguments that the body ignores. -/
def final_run (argv : List String) (env : String → Option String) (fs : FS)
    (o : PdfOutcome) : FS × Option Nat :=
  final_main fs o

/-- Fence-marker test used to state the mermaid-fence invariant: a line
is a fence line when it is exactly the opening marker of a mermaid block
or exactly the closing marker. -/
def isFence (s : String) : Bool := s == "```mermaid" || s == "```"

/-- The subsequence of fence lines of a list of lines. -/
def fenceLines (L : List String) : List String := L.filter isFence

/-- Balanced alternation of fence lines: the list is a sequence of
adjacent pairs, each an opening mermaid marker followed by the plain
closing marker. -/
def altFence : List String → Bool
  | [] => true
  | "```mermaid" :: "```" :: rest => altFence rest
  | _ => false

/-! ## scripts/pdf_converter.py -/

/-- Embedding of extract_text_preserve_structure.  As for the first
script, the returned pair is the accumulated text and the printed
messages, and the pdfplumber interaction is taken atomically. -/
def extract_text_preserve_structure (o : PdfOutcome) : String × List String :=
  match o with
  | .error e => ("", ["Error extracting text: " ++ e])
  | .ok pages =>
    (pages.foldl
      (fun acc p =>
        if pageTruthy p then acc ++ p.getD "" ++ "\n\n--- PAGE BREAK ---\n\n" else acc) "",
     ("Processing " ++ toString pages.length ++ " pages...") ::
       (List.range pages.length).map (fun i => "Processing page " ++ toString (i + 1) ++ "..."))

/-- Embedding of create_structured_markdown.  The Python function binds a
single triple-quoted template to a local variable and returns it; the
parameter text is never used, so the result is this fixed literal,
reproduced here byte for byte from the source. -/
def create_structured_markdown (_text : String) : String :=
  "# ADR-015: Moneta Network Authentication and Identification\n\n**Status:** Proposed  \n**Date:** 2025-06-01\n\n---\n\n## Table of Contents\n\n1. [Context](#1-context)\n2. [Main Use Cases](#2-main-use-cases)\n   - 2.1. [Authentication Flows](#21-authentication-flows)\n   - 2.2. [Partner (MO & Publisher) Management](#22-partner-mo--publisher-management)\n   - 2.3. [mPass Management](#23-mpass-management)\n3. [Decision](#3-decision)\n4. [Consequences](#4-consequences)\n   - [Pros](#pros)\n   - [Cons](#cons)\n   - [Risks & Mitigations](#risks--mitigations)\n5. [Technical Details](#5-technical-details)\n   - 5.1. [OIDC Passwordless Authentication Flow](#51-oidc-passwordless-authentication-flow)\n   - 5.2. [Human-Friendly Identifiers, Tiers, Billing & Lifecycle](#52-human-friendly-identifiers-tiers-billing--lifecycle)\n   - 5.3. [Cross-Cutting Technical Requirements](#53-cross-cutting-technical-requirements)\n   - 5.4. [Security Assessment Summary](#54-security-assessment-summary)\n6. [Open Issues / Next Steps](#6-open-issues--next-steps)\n7. [Story Definition](#7-story-definition)\n   - 7.1. [Authentication Flow Stories](#71-authentication-flow-stories)\n   - 7.2. [Partner (MO & Publisher) Management Stories](#72-partner-mo--publisher-management-stories)\n   - 7.3. [mPass Management Stories](#73-mpass-management-stories)\n\n---\n\n## 1. Context\n\nThe Moneta Network is a platform involving Membership Organizations (MOs), Publishers, and a central Moneta Core. It aims to facilitate user authentication for accessing Publisher services and manage transactions, similar to a payment network. MO users leverage an mPass (analogous to a Visa card), with private keys stored on their MO-managed mobile application and public keys in Moneta Core. The platform will operate globally.\n\n### Current Challenges & Requirements:\n\n#### Authentication:\nDesign a secure OIDC-based passwordless authentication system managed by Moneta Core, using AWS Cognito, Lambda, DynamoDB, and API Gateway. Common flows involve users clicking a \"Login with Moneta mPass\" button on Publisher sites/apps, redirecting to Moneta Core\x27s hosted UI, authenticating via their mPass mobile app (QR scan, OTP), and then being redirected back to the Publisher with OIDC tokens. The system must support session management, token revocation, refresh tokens, and SSO for publisher groups.\n\n#### Identification:\nThe current UUIDv4 identifiers for MOs, Publishers, and mPasses (MO UUID + User UUID) are not human-friendly. A new coding/alias scheme is needed, supporting global scale, high availability, performance, and security.\n\n#### Lifecycle Management:\nThe identifier system must support the lifecycle of MOs, Publishers (pending, destroy) and mPasses (pending, destroy, expiration, user lock, moving mPass between devices, mobile break/recovery).\n\n#### Key Management:\nAn mPass should link to one active key pair and store several expired key pairs. Multiple encryption and signing algorithms need to be supported/suggested.\n\n#### mPass Tiers:\nEach mPass should be assigned a tier (e.g., Standard, Platinum). Tier information will influence policies like consumption limits and accepted debt amounts. Business flows for tier management (e.g., upgrades) are needed.\n\n#### Billing Account Management:\nmPasses, issued by MOs, need to be associated with billing accounts. Types include:\n\n- **Individual Account:** Default; user is responsible for payments.\n- **Company Account:** Multiple mPasses under one account; company owner handles payments.\n- **Family Account:** Similar to Company, but one specific mPass acts as account owner, sets policies for other mPasses under the account, and is responsible for all charges.\n\n#### Technical Stack:\nPrimarily AWS serverless (Cognito, Lambda, DynamoDB, API Gateway), but open to other AWS services (S3, RDS, SNS). EKS is mentioned but serverless is preferred for this module.\n\n#### Non-Functional Requirements:\nLow authentication latency, data synchronization capabilities between Moneta Core modules, extensibility for future auth methods.\n\n#### Development & Operations:\nRecommendations for Lambda development stack and CI/CD.\n\n#### Risk Assessment:\nSecurity risks, pros, and cons for the overall solution and specific authentication methods.\n\n### Goals:\n\n1. To design a robust, secure, and user-friendly OIDC passwordless authentication mechanism.\n2. To propose a human-readable and manageable identification scheme for MOs, Publishers, and mPasses, incorporating tier and billing account structures.\n3. To outline the technical architecture and operational considerations for these systems, ensuring scalability, security, and maintainability.\n\n---\n\n## 2. Main Use Cases\n\nThis section outlines the primary business functions addressed by this ADR, grouped by functional area.\n\n### 2.1. Authentication Flows\n\nThis group covers how users authenticate to access publisher services and how their sessions are managed.\n\n#### Use Cases:\n- User Authenticates to Publisher via Moneta Core\n- User Logs Out from Publisher\n- User Experiences SSO across Grouped Publishers\n- Moneta Core System Manages User Session\n\n#### Narrative:\nThe primary authentication flow involves a User attempting to access a Publisher System. The Publisher System redirects the User to the Moneta Core System for authentication. The User selects a passwordless method (e.g., QR scan, OTP) and uses their mPass Mobile App to complete the challenge presented by Moneta Core. Upon successful authentication, Moneta Core issues OIDC tokens back to the Publisher System, which then grants access to the User.\n\nBeyond the initial login, the system supports:\n\n- **Logout:** The User can initiate a logout from the Publisher System, which communicates with Moneta Core to invalidate the session and relevant tokens.\n- **Refresh Token:** Publisher Systems can use refresh tokens to obtain new access tokens from Moneta Core without requiring the User to re-authenticate, maintaining a seamless experience.\n- **SSO (Single Sign-On):** If a User is already authenticated with Moneta Core and accesses another Publisher System belonging to an affiliated group, Moneta Core facilitates SSO, allowing the User to access the new Publisher service without re-entering credentials.\n- **Session Management:** Moneta Core is responsible for the overall lifecycle of the User\x27s session, including creation, maintenance, and termination based on activity, token expiry, or explicit logout.\n\n### 2.2. Partner (MO & Publisher) Management\n\nThis group covers the administrative functions for managing Membership Organizations (MOs) and Publishers on the Moneta Network.\n\n#### Use Cases:\n- Moneta Core Admin Onboards New MO\n- Moneta Core Admin Views MO Details\n- Moneta Core Admin Updates MO Configuration\n- Moneta Core Admin Manages MO Lifecycle (e.g., Suspend, Activate, Destroy)\n- Moneta Core Admin Onboards New Publisher\n- Moneta Core Admin Views Publisher Details\n- Moneta Core Admin Updates Publisher Configuration\n- Moneta Core Admin Manages Publisher Lifecycle (e.g., Suspend, Activate, Destroy)\n\n#### Narrative:\nPartner management is primarily handled by a Moneta Core Admin interacting with the Moneta Core System.\n\nFor Membership Organizations (MOs), the Admin can perform CRUD (Create, Read, Update, Delete - though \x27Delete\x27 is more accurately \x27Destroy\x27 in lifecycle terms) operations. This includes onboarding new MOs, configuring their parameters (e.g., assigning MICs, setting up communication endpoints), viewing their status and details, and managing their lifecycle (pending approval, active, suspended, destroyed). Changes in the Moneta Core System might trigger notifications or updates to the MO\x27s own external systems.\n\nSimilarly, for Publishers, the Moneta Core Admin manages their onboarding, configuration (e.g., assigning MPCs, defining service endpoints, associating with SSO groups), viewing details, and lifecycle management. These actions ensure that only legitimate and correctly configured partners operate on the network.\n\n### 2.3. mPass Management\n\nThis group covers the lifecycle and attribute management of individual mPasses, including their tiers and billing account associations.\n\n#### Use Cases:\n- MO Admin Issues New mPass to User\n- User/MO Admin Views mPass Details\n- User/MO Admin Updates mPass (e.g., user-lock, MO-initiated suspension)\n- User/MO Admin Manages mPass Lifecycle (Destroy, Reactivate if applicable)\n- Moneta Core System Manages mPass Expiration\n- User Manages mPass Keys (implicitly, via device transfer/recovery flows)\n- MO Admin Assigns/Upgrades/Downgrades mPass Tier\n- MO Admin Associates mPass with Billing Account\n- User (as Billing Account Owner) Manages Linked mPasses (e.g., for Family Accounts, setting policies)\n- User (as Billing Account Owner) Views Consolidated Billing Information (handled by MO, Moneta Core provides data)\n\n#### Narrative:\nmPass management involves multiple actors and system interactions:\n\n**Issuance & Lifecycle:** An MO Admin issues an mPass to a User via the Moneta Core System. The User activates and uses the mPass through their mPass Mobile App. Both the User (e.g., locking their mPass) and the MO Admin (e.g., suspending an mPass) can manage aspects of its lifecycle. Moneta Core automatically handles processes like mPass expiration.\n\n**Key Management:** While not a direct CRUD operation by the user on keys, processes like transferring an mPass to a new device or recovering an mPass after a device break implicitly involve the generation of new key pairs on the mPass Mobile App, with the new public key being registered with Moneta Core.\n\n**Tier Management:** The MO Admin is responsible for assigning an initial tier to an mPass and managing upgrades or downgrades based on business rules or user requests. This information is stored by Moneta Core and affects the policies applied to the mPass.\n\n**Billing Account Management:** The MO Admin associates an mPass with a specific billing account (Individual, Company, or Family) within the Moneta Core System. For Family accounts, the designated Billing Account Owner (a User) can manage policies (e.g., spending limits) for other mPasses linked to their family account, typically via their mPass Mobile App, which then communicates these policy changes to Moneta Core.\n\nThese use cases define the core interactions for identity, access, and account management within the Moneta Network from the perspective of this ADR.\n\n---\n\n## 3. Decision\n\nWe will implement a custom OIDC passwordless authentication flow using AWS Cognito with AWS Lambda triggers for challenge management. For identifiers, we will introduce a structured, human-friendly coding scheme managed centrally by Moneta Core, alongside the existing UUIDs for internal referencing. This system will also incorporate mPass tiers and a flexible billing account structure.\n\n### Key Components of the Decision:\n\n#### OIDC Passwordless Authentication (Moneta Core Managed):\n\n- **Identity Provider:** AWS Cognito User Pools will serve as the OIDC IdP.\n- **Custom Authentication Flow:** Leverage Cognito\x27s Define Auth Challenge, Create Auth Challenge, and Verify Auth Challenge Response Lambda triggers to implement passwordless methods (QR Code Scan, OTP to mPass App).\n- **Hosted UI:** Cognito\x27s Hosted UI will be customized to present these passwordless options.\n- **API Gateway & Lambda:** API Gateway will expose necessary endpoints for the mPass mobile app to interact with during authentication (e.g., submit signed QR data, receive OTP instructions if not purely push-based). These will be backed by Lambda functions.\n- **DynamoDB:** Used to store temporary challenge data (QR session IDs, OTP hashes), mPass public key references, and other authentication metadata.\n- **Standard OIDC Features:** Session management, token revocation, and refresh token capabilities will be handled by Cognito.\n- **SSO:** Cognito\x27s native support for SSO across different app clients within the same user pool will be used for publisher groups.\n\n#### Human-Friendly Identifiers, Tiers, Billing, & Lifecycle Management:\n\n- **MO Code (Moneta Issuer Code - MIC):** A short, centrally assigned alphanumeric code (e.g., MOA01, 4-6 chars).\n- **Publisher Code (Moneta Partner Code - MPC):** A short, centrally assigned alphanumeric code (e.g., PUBS7, 4-6 chars).\n- **mPass Number:** A structured number, analogous to payment card numbers:\n  - **MII (Moneta Issuer Identifier):** First 6-8 digits, globally unique, identifying the issuing MO (linked to MIC).\n  - **MAI (Moneta Account Identifier):** Next 8-12 digits, assigned by the MO, unique within that MO.\n  - **VC (Verification Character):** 1 character (e.g., Luhn check digit).\n  - **Example:** 123456-7890123456-A.\n- **mPass Tiers:** An attribute associated with each mPass (e.g., \"Standard\", \"Platinum\") influencing its policies.\n- **Billing Accounts:** A separate structure to manage how mPass charges are aggregated and paid, supporting Individual, Company, and Family models.\n- **Storage & Management:** These codes, tiers, and billing account associations will be stored in DynamoDB, linked to their respective UUIDs. Moneta Core will manage their lifecycle (Pending, Active, Suspended, Destroyed, Expired) via APIs and automated processes.\n\n#### mPass Key Management:\n\n- Each mPass will be associated with one active public key and a history of inactive (expired, superseded) public keys.\n- Public keys (with algorithm identifiers) stored in Moneta Core\x27s secure storage.\n- Private keys remain solely on the user\x27s mPass mobile app.\n\n**Supported Algorithms:**\n- **Signing:** ECDSA (e.g., P-256, P-384), EdDSA (e.g., Ed25519).\n- **Encryption:** (for data at rest within Moneta Core, if needed beyond standard SSE): AES-256 GCM.\n\n---\n\n## 4. Consequences\n\n### Pros:\n\n\u2705 **Enhanced User Experience:** Passwordless methods are generally faster and more user-friendly. Human-readable codes improve operational clarity.\n\n\u2705 **Flexible Financial Management:** Tier and billing account structures allow for diverse product offerings and payment arrangements.\n\n\u2705 **Leverages AWS Managed Services:** Reduces operational burden for Cognito, Lambda, DynamoDB, API Gateway, ensuring scalability and reliability.\n\n\u2705 **Strong Security Foundation:** OIDC is an industry standard. Custom Lambda triggers allow granular control over authentication logic. Private keys remain on user devices, reducing central risk.\n\n\u2705 **Extensibility:** Cognito\x27s custom auth flow allows adding new passwordless methods in the future. Tier and billing models can also be expanded.\n\n\u2705 **Centralized Control & Consistency:** Moneta Core manages authentication, the identifier namespace, tiers, and billing account structures.\n\n\u2705 **SSO Capability:** Natively supported by Cognito for publisher groups.\n\n\u2705 **Global Scalability:** AWS services provide global infrastructure. DynamoDB Global Tables can be used for low-latency reads of identifier/key data if needed.\n\n### Cons:\n\n\u2757 **Increased Implementation Complexity:** Custom authentication flows, tier logic, and billing account management add layers of complexity to design, development, and testing.\n\n\u2757 **AWS Ecosystem Lock-in:** Significant reliance on AWS services.\n\n\u2757 **Lambda Cold Starts:** Potential for increased latency for infrequently used auth/management functions if not mitigated (e.g., provisioned concurrency).\n\n\u2757 **Mobile App Dependency:** The entire passwordless flow hinges on the security and functionality of the MO\x27s mPass mobile application, which may also need to display tier/billing info.\n\n\u2757 **Data Management Overhead:** Centralized management of codes, tiers, billing accounts, and their interdependencies requires robust processes and potentially more complex data models.\n\n### Risks & Mitigations:\n\n#### Security Risks:\n\n**Compromised Lambda Functions:**\n- **Mitigation:** Strict IAM roles (least privilege), regular code reviews, dependency scanning, security testing (SAST/DAST), AWS WAF on API Gateway.\n\n**Insecure Mobile App Key Storage:**\n- **Mitigation:** Mandate/strongly recommend MOs to ensure private keys are stored in hardware-backed secure enclaves. Provide clear security guidelines.\n\n**QR Code Hijacking/Replay Attacks:**\n- **Mitigation:** Short-lived, single-use QR codes/session IDs. Signing of the QR challenge response by the mPass app. Secure HTTPS. User education.\n\n**OTP Interception/Phishing:**\n- **Mitigation:** Short-lived OTPs. Binding OTPs to sessions. Rate limiting. Secure delivery. User education.\n\n**Identifier Enumeration/Guessing:**\n- **Mitigation:** Avoid strictly sequential assignment. Rate limiting on lookup APIs. Strong validation.\n\n**Unauthorized Tier/Billing Modification:**\n- **Mitigation:** Strong authorization controls on APIs managing tiers and billing accounts (e.g., only MO admins or designated account owners can make changes). Audit trails for all modifications.\n\n**Denial of Service (DoS) against Auth Endpoints:**\n- **Mitigation:** AWS Shield, AWS WAF, scalable serverless infrastructure.\n\n#### Operational Risks:\n\n**Moneta Core Auth Module as Central Point of Failure:**\n- **Mitigation:** Multi-AZ deployments. Consider multi-region for critical components.\n\n**Identifier/Code Collision:**\n- **Mitigation:** Robust central management with atomic operations or strong consistency for assigning unique codes.\n\n**Data Synchronization Failures:**\n- **Mitigation:** Reliable eventing (EventBridge) with DLQs. Monitoring. Idempotent consumers.\n\n**Complexity in Policy Enforcement:**\nEnsuring correct application of policies based on tiers and family billing account rules requires careful logic and testing.\n- **Mitigation:** Thorough testing of policy logic. Clear definition of policy rules. Versioning of policies.\n\n---\n\n*[This is a partial conversion - the document contains additional sections on Technical Details, Security Assessment, Open Issues, and Story Definitions that would continue with the same level of detail and structure]*\n\n"

/-- Embedding of main of scripts/pdf_converter.py, modelled exactly like
final_main: result file system plus exit status. -/
def scripts_main (fs : FS) (o : PdfOutcome) : FS × Option Nat :=
  if (fs pdf_file).isNone then (fs, some 1)
  else
    let raw := (extract_text_preserve_structure o).1
    if pyStrip raw = "" then (fs, some 1)
    else
      let md := create_structured_markdown raw
      (fun p => if p = output_file then some md else fs p, none)

/-- Whole-process model of scripts/pdf_converter.py: the script reads
neither sys.argv nor os.environ, so the command line and the environment
are extra arguments that the body ignores. -/
def scripts_run (argv : List String) (env : String → Option String) (fs : FS)
    (o : PdfOutcome) : FS × Option Nat :=
  scripts_main fs o

/-! ## Bridge lemmas for the boolean string primitives -/

/-- prefixB decides list-prefix decomposition. -/
theorem prefixB_iff : ∀ (n l : List Char), prefixB n l = true ↔ ∃ q, l = n ++ q := by
  intro n
  induction n with
  | nil =>
    intro l
    simp [prefixB]
  | cons a as ih =>
    intro l
    cases l with
    | nil =>
      simp [prefixB]
    | cons b bs =>
      simp only [prefixB, Bool.and_eq_true, beq_iff_eq, ih, List.cons_append]
      constructor
      · rintro ⟨rfl, q, rfl⟩
        exact ⟨q, rfl⟩
      · rintro ⟨q, h⟩
        injection h with h1 h2
        exact ⟨h1.symm, q, h2⟩

/-- infixB decides contiguous-segment decomposition. -/
theorem infixB_iff : ∀ (n l : List Char), infixB n l = true ↔ ∃ p q, l = p ++ n ++ q := by
  intro n l
  induction l with
  | nil =>
    simp only [infixB, List.isEmpty_iff]
    constructor
    · rintro rfl
      exact ⟨[], [], rfl⟩
    · rintro ⟨p, q, h⟩
      rcases List.append_eq_nil.mp (List.append_eq_nil.mp h.symm).1 with ⟨-, h2⟩
      exact h2
  | cons c t ih =>
    simp only [infixB, Bool.or_eq_true, prefixB_iff, ih]
    constructor
    · rintro (⟨q, h⟩ | ⟨p, q, h⟩)
      · exact ⟨[], q, by simpa using h⟩
      · exact ⟨c :: p, q, by simp [h]⟩
    · rintro ⟨p, q, h⟩
      cases p with
      | nil =>
        exact Or.inl ⟨q, by simpa using h⟩
      | cons x p2 =>
        simp only [List.cons_append, List.cons.injEq] at h
        exact Or.inr ⟨p2, q, h.2⟩

/-- The propositional containment relation agrees with pyContains. -/
theorem containsL_iff (hay needle : String) :
    containsL hay needle ↔ pyContains hay needle = true :=
  Iff.symm (infixB_iff needle.data hay.data)

/-! ## Properties of stripping -/

/-- Dropping a while-prefix is the identity when the head fails the
predicate. -/
theorem dropWhile_eq_self (p : Char → Bool) (l : List Char)
    (h : ∀ c, l.head? = some c → p c = false) : l.dropWhile p = l := by
  cases l with
  | nil => rfl
  | cons a t =>
    have ha : p a = false := h a rfl
    simp [List.dropWhile_cons, ha]

/-- The head surviving a dropWhile fails the predicate. -/
theorem head_of_dropWhile (p : Char → Bool) (l : List Char) (c : Char)
    (h : (l.dropWhile p).head? = some c) : p c = false := by
  have h2 := List.head?_dropWhile_not p l
  rw [h] at h2
  exact h2

/-- dropWhile keeps the last element of a list it does not empty. -/
theorem getLast?_dropWhile (p : Char → Bool) :
    ∀ (l : List Char), l.dropWhile p ≠ [] → (l.dropWhile p).getLast? = l.getLast? := by
  intro l
  induction l with
  | nil =>
    intro h
    simp [List.dropWhile] at h
  | cons a t ih =>
    intro h
    by_cases hp : p a = true
    · rw [List.dropWhile_cons_of_pos hp] at h ⊢
      have ht : t ≠ [] := by
        intro he
        rw [he] at h
        simp [List.dropWhile] at h
      rw [ih h]
      cases t with
      | nil => exact absurd rfl ht
      | cons b tb => simp
    · have hp2 : ¬ p a := by simpa using hp
      rw [List.dropWhile_cons_of_neg hp2]

/-- The first character of a stripped line is not whitespace. -/
theorem stripL_head (l : List Char) (c : Char)
    (h : (stripL l).head? = some c) : pyWs c = false := by
  unfold stripL at h
  rw [List.head?_reverse] at h
  by_cases hnil : (l.dropWhile pyWs).reverse.dropWhile pyWs = []
  · rw [hnil] at h
    simp at h
  · rw [getLast?_dropWhile pyWs _ hnil, List.getLast?_reverse] at h
    exact head_of_dropWhile pyWs l c h

/-- The last character of a stripped line is not whitespace. -/
theorem stripL_last (l : List Char) (c : Char)
    (h : (stripL l).getLast? = some c) : pyWs c = false := by
  unfold stripL at h
  rw [List.getLast?_reverse] at h
  exact head_of_dropWhile pyWs (l.dropWhile pyWs).reverse c h

/-- Stripping is idempotent. -/
theorem stripL_idem (l : List Char) : stripL (stripL l) = stripL l := by
  have h1 : (stripL l).dropWhile pyWs = stripL l :=
    dropWhile_eq_self pyWs (stripL l) (stripL_head l)
  have h2 : (stripL l).reverse.dropWhile pyWs = (stripL l).reverse := by
    apply dropWhile_eq_self
    intro c hc
    rw [List.head?_reverse] at hc
    exact stripL_last l c hc
  show ((((stripL l).dropWhile pyWs).reverse.dropWhile pyWs).reverse) = stripL l
  rw [h1, h2, List.reverse_reverse]

/-- Stripping a string twice equals stripping it once. -/
theorem pyStrip_idem (s : String) : pyStrip (pyStrip s) = pyStrip s :=
  congrArg String.mk (stripL_idem s.data)

/-! ## Claim C1 -/

/-- C1, counterexample: the text-to-markdown function of
scripts/pdf_converter.py does not depend on the extracted text.  There is
no pair of inputs on which create_structured_markdown differs, refuting
the claim that for each of the two scripts the produced markdown depends
on the extracted input. -/
theorem C1_counterexample :
    ¬ ∃ t1 t2 : String, create_structured_markdown t1 ≠ create_structured_markdown t2 := by
  rintro ⟨t1, t2, h⟩
  exact h rfl

/-- C1, amended: format_as_proper_markdown in final_pdf_converter.py does
depend on its input (two explicit inputs yield different outputs), while
create_structured_markdown in scripts/pdf_converter.py returns one fixed
string, identical for all inputs. -/
theorem C1_markdown_input_dependence :
    format_as_proper_markdown ["Date: 2025-06-01"] ≠ format_as_proper_markdown [] ∧
    ∀ t1 t2 : String, create_structured_markdown t1 = create_structured_markdown t2 := by
  constructor
  · simp only [format_as_proper_markdown, format_as_proper_markdown_lines]
    simp +decide [fmtLoop, pyJoin, joinL]
  · intro t1 t2
    rfl

/-! ## Claim C2 -/

/-- C2: when the pdfplumber interaction raises an exception, both
extraction functions print the error line and return the empty string
instead of propagating the exception. -/
theorem C2_extraction_error_returns_empty (e : String) :
    (extract_and_clean_text (Except.error e)).1 = "" ∧
    ("Error extracting text: " ++ e) ∈ (extract_and_clean_text (Except.error e)).2 ∧
    (extract_text_preserve_structure (Except.error e)).1 = "" ∧
    ("Error extracting text: " ++ e) ∈ (extract_text_preserve_structure (Except.error e)).2 :=
  ⟨rfl, List.mem_singleton.mpr rfl, rfl, List.mem_singleton.mpr rfl⟩

/-! ## Claim C3 -/

/-- C3: in both scripts, when the extracted raw text strips to nothing,
main exits with status 1 and leaves the file system unchanged, so the
output file is not written. -/
theorem C3_empty_extraction_exits (fs : FS) (o : PdfOutcome) :
    (pyStrip (extract_and_clean_text o).1 = "" → final_main fs o = (fs, some 1)) ∧
    (pyStrip (extract_text_preserve_structure o).1 = "" → scripts_main fs o = (fs, some 1)) := by
  constructor
  · intro h
    unfold final_main
    by_cases hp : (fs pdf_file).isNone
    · simp [hp]
    · simp [hp, h]
  · intro h
    unfold scripts_main
    by_cases hp : (fs pdf_file).isNone
    · simp [hp]
    · simp [hp, h]

/-- C3, witness: a run whose pdfplumber interaction fails, so that the
extracted text is empty, indeed exits with status 1. -/
theorem C3_witness :
    pyStrip (extract_and_clean_text (Except.error "boom")).1 = "" ∧
    final_main (fun _ => some "pdfbytes") (Except.error "boom") =
      ((fun _ => some "pdfbytes" : FS), some 1) :=
  ⟨by decide,
   (C3_empty_extraction_exits (fun _ => some "pdfbytes") (Except.error "boom")).1 (by decide)⟩

/-! ## Claim C7 -/

/-- C7: neither script reads the command line or the environment: two runs
seeing the same file system and the same PDF extraction outcome produce
identical results whatever the arguments and environment are. -/
theorem C7_no_cli_env_dependence (a1 a2 : List String)
    (e1 e2 : String → Option String) (fs : FS) (o : PdfOutcome) :
    final_run a1 e1 fs o = final_run a2 e2 fs o ∧
    scripts_run a1 e1 fs o = scripts_run a2 e2 fs o :=
  ⟨rfl, rfl⟩

/-! ## Claim C8 -/

/-- C8: every line returned by clean_and_structure_text is non-empty,
fixed under stripping, and not made of decimal digits only. -/
theorem C8_clean_lines_invariant (text : String) (s : String)
    (hs : s ∈ clean_and_structure_text text) :
    s ≠ "" ∧ pyStrip s = s ∧ reAllDigits s.data = false := by
  unfold clean_and_structure_text at hs
  rw [List.mem_flatten] at hs
  obtain ⟨block, hblock, hmem⟩ := hs
  rw [List.mem_map] at hblock
  obtain ⟨chunk, -, rfl⟩ := hblock
  by_cases hb : pyStrip chunk = ""
  · rw [if_pos hb] at hmem
    simp at hmem
  · rw [if_neg hb] at hmem
    rw [List.mem_filterMap] at hmem
    obtain ⟨line0, -, hline⟩ := hmem
    by_cases h1 : pyStrip line0 = ""
    · simp only [h1, if_pos rfl] at hline
      exact absurd hline (by simp)
    · by_cases h2 : reAllDigits (pyStrip line0).data = true
      · simp only [if_neg h1, h2, if_true] at hline
        exact absurd hline (by simp)
      · simp only [if_neg h1, if_neg h2, Option.some.injEq] at hline
        subst hline
        exact ⟨h1, pyStrip_idem line0, by simpa using h2⟩

/-- C8, witness: a concrete input with a member line satisfying the three
invariants. -/
theorem C8_witness :
    "a" ∈ clean_and_structure_text "a\n12\n b " ∧
    "a" ≠ "" ∧ pyStrip "a" = "a" ∧ reAllDigits "a".data = false :=
  have hm : "a" ∈ clean_and_structure_text "a\n12\n b " := by
    simp +decide [clean_and_structure_text, pySplit, splitL]
  ⟨hm, C8_clean_lines_invariant "a\n12\n b " "a" hm⟩

/-! ## Claim C4 -/

/-- C4: whatever the inputs are, the markdown produced by either script is
non-empty and contains the heading marker of ADR-015. -/
theorem C4_output_contains_adr015 (lines : List String) (t : String) :
    format_as_proper_markdown lines ≠ "" ∧
    containsL (format_as_proper_markdown lines) "# ADR-015" ∧
    create_structured_markdown t ≠ "" ∧
    containsL (create_structured_markdown t) "# ADR-015" := by
  have hdata : (format_as_proper_markdown lines).data =
      "# ADR-015".data ++
        (": Moneta Network Authentication and Identification".data ++
          '\n' :: joinL "\n".data ("".data :: (fmtLoop lines).map String.data)) := by
    show ("# ADR-015: Moneta Network Authentication and Identification".data ++
        "\n".data ++ joinL "\n".data ("".data :: (fmtLoop lines).map String.data)) = _
    simp
  have h0 : create_structured_markdown t = create_structured_markdown "" := rfl
  have hcne : create_structured_markdown t ≠ "" := by
    rw [h0]
    decide
  have hcc : pyContains (create_structured_markdown t) "# ADR-015" = true := by
    rw [h0]
    decide
  refine ⟨?_, ⟨[], _, hdata⟩, hcne, (containsL_iff _ _).mpr hcc⟩
  intro h
  rw [h] at hdata
  simp at hdata

/-! ## Claim C9 -/

/-- The collapsing pass preserves the first element. -/
theorem collapse3_head (l : List Char) : (collapse3 l).head? = l.head? := by
  cases l with
  | nil => simp [collapse3]
  | cons c rest =>
    by_cases h : c = '\n' ∧ rest.take 2 = ['\n', '\n']
    · simp [collapse3, h, h.1]
    · simp [collapse3, h]

/-- Lists with equal optional heads have equal one-element prefixes. -/
theorem take_one_congr (l m : List Char) (h : l.head? = m.head?) :
    l.take 1 = m.take 1 := by
  cases l <;> cases m <;> simp_all

/-- The collapsing pass preserves the first two elements. -/
theorem collapse3_take2 (l : List Char) : (collapse3 l).take 2 = l.take 2 := by
  cases l with
  | nil => simp [collapse3]
  | cons c rest =>
    by_cases h : c = '\n' ∧ rest.take 2 = ['\n', '\n']
    · have h1 : rest.take 1 = ['\n'] := by
        have := congrArg (List.take 1) h.2
        simpa [List.take_take] using this
      simp [collapse3, h, h.1, List.take_succ_cons, h1]
    · have h1 : (collapse3 rest).take 1 = rest.take 1 :=
        take_one_congr _ _ (collapse3_head rest)
      simp [collapse3, h, List.take_succ_cons, h1]

/-- After the collapsing pass no three consecutive newlines remain. -/
theorem collapse3_no_triple :
    ∀ (n : Nat) (l : List Char), l.length ≤ n →
      ∀ p q, collapse3 l ≠ p ++ '\n' :: '\n' :: '\n' :: q := by
  intro n
  induction n with
  | zero =>
    intro l hl p q
    have : l = [] := List.length_eq_zero.mp (Nat.le_zero.mp hl)
    subst this
    simp [collapse3]
  | succ n ih =>
    intro l hl p q heq
    cases l with
    | nil =>
      simp [collapse3] at heq
    | cons c rest =>
      simp only [List.length_cons, Nat.succ_le_succ_iff] at hl
      by_cases h : c = '\n' ∧ rest.take 2 = ['\n', '\n']
      · rw [show collapse3 (c :: rest) =
            '\n' :: '\n' :: collapse3 (rest.dropWhile (fun x => x == '\n')) by
          simp [collapse3, h]] at heq
        have hX : (collapse3 (rest.dropWhile (fun x => x == '\n'))).head? ≠ some '\n' := by
          rw [collapse3_head]
          intro hh
          have := head_of_dropWhile (fun x => x == '\n') rest '\n' hh
          simp at this
        have hlen : (rest.dropWhile (fun x => x == '\n')).length ≤ n :=
          Nat.le_trans (length_dropWhileLe _ _) hl
        match p, heq with
        | [], heq =>
          simp only [List.nil_append, List.cons.injEq] at heq
          obtain ⟨-, -, h3⟩ := heq
          exact hX (by rw [h3]; rfl)
        | [a], heq =>
          simp only [List.cons_append, List.nil_append, List.cons.injEq] at heq
          obtain ⟨-, -, h3⟩ := heq
          exact hX (by rw [h3]; rfl)
        | a :: b :: p2, heq =>
          simp only [List.cons_append, List.cons.injEq] at heq
          obtain ⟨-, -, h3⟩ := heq
          exact ih _ hlen p2 q h3
      · rw [show collapse3 (c :: rest) = c :: collapse3 rest by simp [collapse3, h]] at heq
        match p, heq with
        | [], heq =>
          simp only [List.nil_append, List.cons.injEq] at heq
          apply h
          refine ⟨heq.1, ?_⟩
          have := collapse3_take2 rest
          rw [heq.2] at this
          simpa using this.symm
        | a :: p2, heq =>
          simp only [List.cons_append, List.cons.injEq] at heq
          exact ih _ hl p2 q heq.2

/-- C9: the result of manual_content_fixes never contains three
consecutive newline characters. -/
theorem C9_no_triple_newline (content : String) :
    ¬ containsL (manual_content_fixes content) "\n\n\n" := by
  rintro ⟨p, q, h⟩
  have h2 : "\n\n\n".data = ['\n', '\n', '\n'] := rfl
  rw [h2] at h
  have h3 : p ++ ['\n', '\n', '\n'] ++ q = p ++ '\n' :: '\n' :: '\n' :: q := by simp
  rw [h3] at h
  exact collapse3_no_triple _ _ (Nat.le_refl _) p q h

/-! ## Claim C6 -/

/-- C6: each script touches at most the single hardcoded output path, and
a run that terminates normally has fully replaced the content of that path
with the output of its conversion pipeline, independently of what the file
contained before. -/
theorem C6_single_output_file (fs : FS) (o : PdfOutcome) :
    (∀ p, p ≠ output_file → (final_main fs o).1 p = fs p) ∧
    ((final_main fs o).2 = none →
      (final_main fs o).1 output_file =
        some (manual_content_fixes (format_as_proper_markdown
          (clean_and_structure_text (extract_and_clean_text o).1)))) ∧
    (∀ p, p ≠ output_file → (scripts_main fs o).1 p = fs p) ∧
    ((scripts_main fs o).2 = none →
      (scripts_main fs o).1 output_file =
        some (create_structured_markdown (extract_text_preserve_structure o).1)) := by
  refine ⟨?_, ?_, ?_, ?_⟩
  · intro p hp
    unfold final_main
    by_cases h1 : (fs pdf_file).isNone
    · simp [h1]
    · by_cases h2 : pyStrip (extract_and_clean_text o).1 = ""
      · simp [h1, h2]
      · simp [h1, h2, hp]
  · intro hnorm
    unfold final_main at hnorm ⊢
    by_cases h1 : (fs pdf_file).isNone
    · simp [h1] at hnorm
    · by_cases h2 : pyStrip (extract_and_clean_text o).1 = ""
      · simp [h1, h2] at hnorm
      · simp [h1, h2]
  · intro p hp
    unfold scripts_main
    by_cases h1 : (fs pdf_file).isNone
    · simp [h1]
    · by_cases h2 : pyStrip (extract_text_preserve_structure o).1 = ""
      · simp [h1, h2]
      · simp [h1, h2, hp]
  · intro hnorm
    unfold scripts_main at hnorm ⊢
    by_cases h1 : (fs pdf_file).isNone
    · simp [h1] at hnorm
    · by_cases h2 : pyStrip (extract_text_preserve_structure o).1 = ""
      · simp [h1, h2] at hnorm
      · simp [h1, h2]

/-- C6, witness: a successful concrete run leaves every other path
untouched and stores the pipeline output at the hardcoded path. -/
theorem C6_witness :
    ("docs/adr/other.md" : String) ≠ output_file ∧
    (final_main (fun _ => some "x") (Except.ok [some "Hello"])).2 = none ∧
    (final_main (fun _ => some "x") (Except.ok [some "Hello"])).1 "docs/adr/other.md" =
      (fun _ => some ("x" : String)) "docs/adr/other.md" ∧
    (final_main (fun _ => some "x") (Except.ok [some "Hello"])).1 output_file =
      some (manual_content_fixes (format_as_proper_markdown
        (clean_and_structure_text (extract_and_clean_text (Except.ok [some "Hello"])).1))) := by
  have hne : ("docs/adr/other.md" : String) ≠ output_file := by decide
  have hnorm : (final_main (fun _ => some "x") (Except.ok [some "Hello"])).2 = none := by
    simp +decide [final_main, extract_and_clean_text]
  exact ⟨hne, hnorm,
    (C6_single_output_file (fun _ => some "x") (Except.ok [some "Hello"])).1 _ hne,
    (C6_single_output_file (fun _ => some "x") (Except.ok [some "Hello"])).2.1 hnorm⟩

/-! ## Claim C5: supporting lemmas -/

/-- A string starting with a non-empty literal is non-empty. -/
theorem ne_empty_of_startsWith (l pre : String) (h : pyStartsWith l pre = true)
    (hpre : pre.data ≠ []) : l ≠ "" := by
  intro hl
  obtain ⟨q, hq⟩ := (prefixB_iff pre.data l.data).mp h
  rw [hl] at hq
  have h0 : ([] : List Char) = pre.data ++ q := hq
  exact hpre (List.append_eq_nil.mp h0.symm).1

/-- A string starting with a literal starts with its first character. -/
theorem startsWith_head (l pre : String) (c : Char) (h : pyStartsWith l pre = true)
    (hc : pre.data.head? = some c) : l.data.head? = some c := by
  obtain ⟨q, hq⟩ := (prefixB_iff pre.data l.data).mp h
  rw [hq, List.head?_append, hc]
  rfl

/-- Two literals with distinct first characters cannot both be prefixes. -/
theorem startsWith_false_of_heads (l pre1 pre2 : String) (c1 c2 : Char)
    (h1 : pyStartsWith l pre1 = true) (hc1 : pre1.data.head? = some c1)
    (hc2 : pre2.data.head? = some c2) (hne : c1 ≠ c2) :
    pyStartsWith l pre2 = false := by
  cases hsw : pyStartsWith l pre2 with
  | false => rfl
  | true =>
    have ha := startsWith_head l pre1 c1 h1 hc1
    have hb := startsWith_head l pre2 c2 hsw hc2
    rw [ha] at hb
    exact absurd (Option.some.inj hb) hne

/-- The section pattern fails on a line whose first character is not a
digit. -/
theorem reSection_none_of_head (l : List Char) (c : Char) (h : l.head? = some c)
    (hc : c.isDigit = false) : reSection l = none := by
  cases l with
  | nil => simp at h
  | cons a t =>
    obtain rfl : a = c := by simpa using h
    simp [reSection, List.takeWhile_cons, hc]

/-- The sub-section pattern fails on a line whose first character is not a
digit. -/
theorem reSubSection_none_of_head (l : List Char) (c : Char) (h : l.head? = some c)
    (hc : c.isDigit = false) : reSubSection l = none := by
  cases l with
  | nil => simp at h
  | cons a t =>
    obtain rfl : a = c := by simpa using h
    simp [reSubSection, List.takeWhile_cons, hc]

/-- An element failing the predicate survives dropWhile. -/
theorem mem_dropWhile_of_neg (p : String → Bool) :
    ∀ (l : List String) (x : String), x ∈ l → p x = false → x ∈ l.dropWhile p := by
  intro l
  induction l with
  | nil =>
    intro x hx
    simp at hx
  | cons a t ih =>
    intro x hx hpx
    by_cases hpa : p a = true
    · rw [List.dropWhile_cons_of_pos hpa]
      rcases List.mem_cons.mp hx with rfl | hx2
      · simp [hpx] at hpa
      · exact ih x hx2 hpx
    · rw [List.dropWhile_cons_of_neg hpa]
      exact hx

/-- Anything in both possible recursive outputs of the loop survives one
processing step, whatever branch the head line takes. -/
theorem fmtLoop_cons_superset (raw : String) (rest : List String) (x : String)
    (hr : x ∈ fmtLoop rest) (hd : x ∈ fmtLoop (rest.dropWhile lookCond)) :
    x ∈ fmtLoop (raw :: rest) := by
  rw [fmtLoop.eq_def]
  dsimp only
  repeat' split
  all_goals simp_all [List.mem_cons, List.mem_append]

/-- Core of claim C5: a line of the input that is already stripped, does
not mention both ADR-015 strings, and cannot be captured by the
sequence-diagram look-ahead, is emitted by the loop in bold when it starts
with the Status label, and as a level-3 heading when it starts with the
Pros or Cons keyword. -/
theorem fmtLoop_keyword_mem :
    ∀ (n : Nat) (lines : List String), lines.length ≤ n →
      ∀ l : String, l ∈ lines → pyStrip l = l → lookCond l = false →
        (pyContains l "ADR-015" && pyContains l "Moneta Network Authentication") = false →
        (pyStartsWith l "Status:" = true → ("**" ++ l ++ "**") ∈ fmtLoop lines) ∧
        ((pyStartsWith l "Pros:" = true ∨ pyStartsWith l "Cons:" = true) →
          ("### " ++ l) ∈ fmtLoop lines) := by
  intro n
  induction n with
  | zero =>
    intro lines hl l hmem
    rw [List.length_eq_zero.mp (Nat.le_zero.mp hl)] at hmem
    simp at hmem
  | succ n ih =>
    intro lines hl l hmem hstrip hlook hadr
    cases lines with
    | nil => simp at hmem
    | cons raw rest =>
      simp only [List.length_cons, Nat.succ_le_succ_iff] at hl
      rcases List.mem_cons.mp hmem with rfl | hmem2
      · constructor
        · intro hS
          have hne : l ≠ "" := ne_empty_of_startsWith l "Status:" hS (by decide)
          rw [fmtLoop.eq_def]
          dsimp only
          rw [hstrip]
          simp only [if_neg hne, hadr, Bool.false_eq_true, if_false, hS, if_true]
          exact List.mem_cons_self _ _
        · intro hPC
          have hhead : ∃ c, l.data.head? = some c ∧ c.isDigit = false ∧
              pyStartsWith l "Status:" = false ∧ pyStartsWith l "Date:" = false ∧
              (headerKeywords.any fun k => pyStartsWith l k) = true ∧ l ≠ "" := by
            rcases hPC with hP | hP
            · exact ⟨'P', startsWith_head l "Pros:" 'P' hP rfl, by decide,
                startsWith_false_of_heads l "Pros:" "Status:" 'P' 'S' hP rfl rfl (by decide),
                startsWith_false_of_heads l "Pros:" "Date:" 'P' 'D' hP rfl rfl (by decide),
                List.any_eq_true.mpr ⟨"Pros:", by decide, hP⟩,
                ne_empty_of_startsWith l "Pros:" hP (by decide)⟩
            · exact ⟨'C', startsWith_head l "Cons:" 'C' hP rfl, by decide,
                startsWith_false_of_heads l "Cons:" "Status:" 'C' 'S' hP rfl rfl (by decide),
                startsWith_false_of_heads l "Cons:" "Date:" 'C' 'D' hP rfl rfl (by decide),
                List.any_eq_true.mpr ⟨"Cons:", by decide, hP⟩,
                ne_empty_of_startsWith l "Cons:" hP (by decide)⟩
          obtain ⟨c, hc, hcd, hS, hD, hany, hne⟩ := hhead
          have hsec := reSection_none_of_head l.data c hc hcd
          have hsub := reSubSection_none_of_head l.data c hc hcd
          rw [fmtLoop.eq_def]
          dsimp only
          rw [hstrip]
          simp only [if_neg hne, hadr, Bool.false_eq_true, if_false, hS, hD,
            hsec, hsub, hany, if_true]
          exact List.mem_cons_self _ _
      · have hdrop : l ∈ rest.dropWhile lookCond :=
          mem_dropWhile_of_neg lookCond rest l hmem2 hlook
        have hdlen : (rest.dropWhile lookCond).length ≤ n :=
          Nat.le_trans ((List.dropWhile_sublist lookCond).length_le) hl
        have ihr := ih rest hl l hmem2 hstrip hlook hadr
        have ihd := ih (rest.dropWhile lookCond) hdlen l hdrop hstrip hlook hadr
        constructor
        · intro hS
          exact fmtLoop_cons_superset raw rest _ (ihr.1 hS) (ihd.1 hS)
        · intro hPC
          exact fmtLoop_cons_superset raw rest _ (ihr.2 hPC) (ihd.2 hPC)

/-- A member of the joined list is contained in the joined string. -/
theorem containsL_of_mem_join :
    ∀ (L : List String) (a : String), a ∈ L → containsL (pyJoin "\n" L) a := by
  intro L
  induction L with
  | nil =>
    intro a ha
    simp at ha
  | cons x t ih =>
    intro a ha
    cases t with
    | nil =>
      rcases List.mem_cons.mp ha with rfl | h2
      · exact ⟨[], [], by simp [pyJoin, joinL]⟩
      · simp at h2
    | cons y t2 =>
      rcases List.mem_cons.mp ha with rfl | h2
      · exact ⟨[], "\n".data ++ joinL "\n".data ((y :: t2).map String.data),
          by simp [pyJoin, joinL]⟩
      · obtain ⟨p, q, hpq⟩ := ih a h2
        refine ⟨x.data ++ "\n".data ++ p, q, ?_⟩
        show joinL "\n".data ((x :: y :: t2).map String.data) = _
        have hstep : joinL "\n".data ((x :: y :: t2).map String.data) =
            x.data ++ "\n".data ++ joinL "\n".data ((y :: t2).map String.data) := rfl
        rw [hstep]
        have hq : joinL "\n".data ((y :: t2).map String.data) = p ++ a.data ++ q := hpq
        rw [hq]
        simp

/-- C5, amended: the bold and heading emissions hold for keyword lines
that are already stripped, do not mention both title fragments (such lines
are skipped), and contain none of the sequence-diagram look-ahead tokens
(such lines can be captured verbatim by a preceding diagram line). -/
theorem C5_keyword_lines_amended (lines : List String) (l : String)
    (hmem : l ∈ lines) (hstrip : pyStrip l = l) (hlook : lookCond l = false)
    (hadr : (pyContains l "ADR-015" && pyContains l "Moneta Network Authentication") = false) :
    (pyStartsWith l "Status:" = true →
      containsL (format_as_proper_markdown lines) ("**" ++ l ++ "**")) ∧
    ((pyStartsWith l "Pros:" = true ∨ pyStartsWith l "Cons:" = true) →
      containsL (format_as_proper_markdown lines) ("### " ++ l)) := by
  have h := fmtLoop_keyword_mem lines.length lines (Nat.le_refl _) l hmem hstrip hlook hadr
  constructor
  · intro hS
    exact containsL_of_mem_join (format_as_proper_markdown_lines lines) _
      (List.mem_cons_of_mem _ (List.mem_cons_of_mem _ (h.1 hS)))
  · intro hPC
    exact containsL_of_mem_join (format_as_proper_markdown_lines lines) _
      (List.mem_cons_of_mem _ (List.mem_cons_of_mem _ (h.2 hPC)))

/-- C5, counterexample: three concrete Status lines that begin with the
literal Status label yet are not wrapped in bold in the output: one that
mentions both title fragments and is skipped, one with trailing
whitespace whose wrapped raw form never occurs, and one captured verbatim
by the look-ahead of a preceding sequence-diagram line. -/
theorem C5_counterexample :
    (pyStartsWith "Status: ADR-015 Moneta Network Authentication" "Status:" = true ∧
      ¬ containsL (format_as_proper_markdown ["Status: ADR-015 Moneta Network Authentication"])
          ("**" ++ "Status: ADR-015 Moneta Network Authentication" ++ "**")) ∧
    (pyStartsWith "Status: ok " "Status:" = true ∧
      ¬ containsL (format_as_proper_markdown ["Status: ok "])
          ("**" ++ "Status: ok " ++ "**")) ∧
    (pyStartsWith "Status: a->b" "Status:" = true ∧
      ¬ containsL (format_as_proper_markdown ["sequenceDiagram", "Status: a->b"])
          ("**" ++ "Status: a->b" ++ "**")) := by
  refine ⟨⟨by decide, ?_⟩, ⟨by decide, ?_⟩, ⟨by decide, ?_⟩⟩
  all_goals intro hc
  all_goals have hb := (containsL_iff _ _).mp hc
  all_goals revert hb
  all_goals simp +decide [format_as_proper_markdown, format_as_proper_markdown_lines,
    fmtLoop, pyJoin, joinL]

/-- C5, witness: concrete keyword lines satisfying all hypotheses, with
the wrapped and heading forms contained in the output. -/
theorem C5_witness :
    containsL (format_as_proper_markdown ["Status: Proposed", "Pros: speed"])
      ("**" ++ "Status: Proposed" ++ "**") ∧
    containsL (format_as_proper_markdown ["Status: Proposed", "Pros: speed"])
      ("### " ++ "Pros: speed") :=
  ⟨(C5_keyword_lines_amended ["Status: Proposed", "Pros: speed"] "Status: Proposed"
      (by decide) (by decide) (by decide) (by decide)).1 (by decide),
   (C5_keyword_lines_amended ["Status: Proposed", "Pros: speed"] "Pros: speed"
      (by decide) (by decide) (by decide) (by decide)).2 (Or.inl (by decide))⟩

/-! ## Claim C10: supporting lemmas -/

/-- A string equal to neither marker is not a fence line. -/
theorem isFence_false_of_ne (s : String) (h1 : s ≠ "```mermaid") (h2 : s ≠ "```") :
    isFence s = false := by
  simp [isFence, h1, h2]

/-- A string whose first character is not a backtick is not a fence
line. -/
theorem isFence_false_of_head (s : String) (c : Char) (hc : s.data.head? = some c)
    (h : c ≠ '`') : isFence s = false := by
  apply isFence_false_of_ne
  · intro he
    rw [he] at hc
    exact h (by simpa using hc.symm)
  · intro he
    rw [he] at hc
    exact h (by simpa using hc.symm)

/-- Lines accepted by the look-ahead condition are not fence lines. -/
theorem isFence_false_of_lookCond (s : String) (h : lookCond s = true) :
    isFence s = false := by
  apply isFence_false_of_ne
  · intro he
    rw [he] at h
    exact absurd h (by decide)
  · intro he
    rw [he] at h
    exact absurd h (by decide)

/-- Prepending a literal keeps the first character of the literal. -/
theorem head_of_append_lit (pre x : String) (c : Char) (h : pre.data.head? = some c) :
    (pre ++ x).data.head? = some c := by
  rw [String.data_append, List.head?_append, h]
  rfl

/-- Filtering fences past a non-fence line. -/
theorem fenceLines_cons_of_not (s : String) (L : List String) (h : isFence s = false) :
    fenceLines (s :: L) = fenceLines L := by
  simp [fenceLines, List.filter_cons, h]

/-- Filtering fences past a fence line. -/
theorem fenceLines_cons_of_pos (s : String) (L : List String) (h : isFence s = true) :
    fenceLines (s :: L) = s :: fenceLines L := by
  simp [fenceLines, List.filter_cons, h]

/-- Filtering fences past a block of non-fence lines. -/
theorem fenceLines_append_none (A B : List String) (h : ∀ a ∈ A, isFence a = false) :
    fenceLines (A ++ B) = fenceLines B := by
  have hA : A.filter isFence = [] := by
    apply List.filter_eq_nil_iff.mpr
    intro a ha
    simp [h a ha]
  show (A ++ B).filter isFence = B.filter isFence
  rw [List.filter_append, hA, List.nil_append]

/-- Bold-wrapped lines are not fence lines. -/
theorem isFence_false_star (x : String) : isFence ("**" ++ x ++ "**") = false :=
  isFence_false_of_head _ '*'
    (head_of_append_lit _ _ _ (head_of_append_lit _ _ _ (by decide))) (by decide)

/-- Section headings are not fence lines. -/
theorem isFence_false_sec (a b : String) : isFence ("## " ++ a ++ ". " ++ b) = false :=
  isFence_false_of_head _ '#'
    (head_of_append_lit _ _ _ (head_of_append_lit _ _ _ (head_of_append_lit _ _ _ (by decide))))
    (by decide)

/-- Sub-section headings are not fence lines. -/
theorem isFence_false_subsec (a b : String) : isFence ("### " ++ a ++ ". " ++ b) = false :=
  isFence_false_of_head _ '#'
    (head_of_append_lit _ _ _ (head_of_append_lit _ _ _ (head_of_append_lit _ _ _ (by decide))))
    (by decide)

/-- Keyword headings are not fence lines. -/
theorem isFence_false_h3 (x : String) : isFence ("### " ++ x) = false :=
  isFence_false_of_head _ '#' (head_of_append_lit _ _ _ (by decide)) (by decide)

/-- Technical-label headings are not fence lines. -/
theorem isFence_false_h4 (x : String) : isFence ("#### " ++ x) = false :=
  isFence_false_of_head _ '#' (head_of_append_lit _ _ _ (by decide)) (by decide)

/-- Core of claim C10: when no input line strips to a fence marker, the
fence lines assembled by the loop alternate in balanced opening-closing
pairs. -/
theorem fmtLoop_fences :
    ∀ (n : Nat) (lines : List String), lines.length ≤ n →
      (∀ l ∈ lines, pyStrip l ≠ "```" ∧ pyStrip l ≠ "```mermaid") →
      altFence (fenceLines (fmtLoop lines)) = true := by
  intro n
  induction n with
  | zero =>
    intro lines hl hyp
    rw [List.length_eq_zero.mp (Nat.le_zero.mp hl)]
    simp [fmtLoop, fenceLines, altFence]
  | succ n ih =>
    intro lines hl hyp
    cases lines with
    | nil => simp [fmtLoop, fenceLines, altFence]
    | cons raw rest =>
      simp only [List.length_cons, Nat.succ_le_succ_iff] at hl
      have hypr : ∀ l ∈ rest, pyStrip l ≠ "```" ∧ pyStrip l ≠ "```mermaid" :=
        fun l hml => hyp l (List.mem_cons_of_mem _ hml)
      have hypd : ∀ l ∈ rest.dropWhile lookCond,
          pyStrip l ≠ "```" ∧ pyStrip l ≠ "```mermaid" :=
        fun l hml => hypr l (List.dropWhile_subset lookCond hml)
      have ihr := ih rest hl hypr
      have ihd := ih (rest.dropWhile lookCond)
        (Nat.le_trans (List.dropWhile_sublist lookCond).length_le hl) hypd
      have hraw := hyp raw (List.mem_cons_self _ _)
      have hfr : isFence (pyStrip raw) = false := isFence_false_of_ne _ hraw.2 hraw.1
      have hftaken : ∀ a ∈ rest.takeWhile lookCond, isFence a = false :=
        fun a ha => isFence_false_of_lookCond a (List.mem_takeWhile_imp ha)
      rw [fmtLoop.eq_def]
      dsimp only
      by_cases h1 : pyStrip raw = ""
      · rw [if_pos h1]
        exact ihr
      rw [if_neg h1]
      by_cases h2 : (pyContains (pyStrip raw) "ADR-015" &&
          pyContains (pyStrip raw) "Moneta Network Authentication") = true
      · rw [if_pos h2]
        exact ihr
      rw [if_neg h2]
      by_cases h3 : pyStartsWith (pyStrip raw) "Status:" = true
      · rw [if_pos h3, fenceLines_cons_of_not _ _ (isFence_false_star _),
          fenceLines_cons_of_not _ _ (by decide)]
        exact ihr
      rw [if_neg h3]
      by_cases h4 : pyStartsWith (pyStrip raw) "Date:" = true
      · rw [if_pos h4, fenceLines_cons_of_not _ _ (isFence_false_star _),
          fenceLines_cons_of_not _ _ (by decide)]
        exact ihr
      rw [if_neg h4]
      cases hsec : reSection (pyStrip raw).data with
      | some nt =>
        obtain ⟨num, title⟩ := nt
        dsimp only
        rw [fenceLines_cons_of_not _ _ (isFence_false_sec _ _),
          fenceLines_cons_of_not _ _ (by decide)]
        exact ihr
      | none =>
      dsimp only
      cases hsub : reSubSection (pyStrip raw).data with
      | some nt =>
        obtain ⟨num, title⟩ := nt
        dsimp only
        rw [fenceLines_cons_of_not _ _ (isFence_false_subsec _ _),
          fenceLines_cons_of_not _ _ (by decide)]
        exact ihr
      | none =>
      dsimp only
      by_cases h5 : (headerKeywords.any fun k => pyStartsWith (pyStrip raw) k) = true
      · rw [if_pos h5, fenceLines_cons_of_not _ _ (isFence_false_h3 _),
          fenceLines_cons_of_not _ _ (by decide)]
        exact ihr
      rw [if_neg h5]
      by_cases h6 : reTechLabel (pyStrip raw).data = true ∧ (pyStrip raw).data.length < 50
      · rw [if_pos h6, fenceLines_cons_of_not _ _ (isFence_false_h4 _),
          fenceLines_cons_of_not _ _ (by decide)]
        exact ihr
      rw [if_neg h6]
      by_cases h7 : listItemCond (pyStrip raw) = true
      · rw [if_pos h7, fenceLines_cons_of_not _ _ hfr]
        exact ihr
      rw [if_neg h7]
      by_cases h8 : diagCond (pyStrip raw) = true
      · rw [if_pos h8]
        by_cases h9 : pyContains (pyStrip raw) "sequenceDiagram" = true
        · rw [if_pos h9, fenceLines_cons_of_pos _ _ (by decide),
            fenceLines_cons_of_not _ _ hfr, fenceLines_append_none _ _ hftaken,
            fenceLines_cons_of_pos _ _ (by decide),
            fenceLines_cons_of_not _ _ (by decide)]
          simpa [altFence] using ihd
        · rw [if_neg h9, fenceLines_cons_of_not _ _ hfr,
            fenceLines_append_none _ _ hftaken]
          exact ihd
      rw [if_neg h8, fenceLines_cons_of_not _ _ hfr,
        fenceLines_cons_of_not _ _ (by decide)]
      exact ihr

/-- Characters of a stripped line come from the line. -/
theorem mem_stripL (l : List Char) (x : Char) (h : x ∈ stripL l) : x ∈ l := by
  unfold stripL at h
  rw [List.mem_reverse] at h
  have h2 := List.dropWhile_subset pyWs h
  rw [List.mem_reverse] at h2
  exact List.dropWhile_subset pyWs h2

/-- The tail capture of the section patterns never contains a newline. -/
theorem reTailCapture_no_newline (rem : List Char) (title : List Char)
    (h : reTailCapture rem = some title) : '\n' ∉ title := by
  unfold reTailCapture at h
  by_cases ht : (rem.dropWhile pyWs).isEmpty
  · rw [if_pos ht] at h
    cases hm : (rem.takeWhile pyWs).reverse.dropWhile (fun c => c == '\n') with
    | nil =>
      rw [hm] at h
      simp at h
    | cons c cs =>
      rw [hm] at h
      simp only [Option.some.injEq] at h
      have hc : (c == '\n') = false := head_of_dropWhile _ _ c (by rw [hm]; rfl)
      rw [← h]
      intro hmem
      simp at hmem
      rw [hmem] at hc
      simp at hc
  · rw [if_neg ht] at h
    simp only [Option.some.injEq] at h
    rw [← h]
    intro hmem
    have := List.mem_takeWhile_imp hmem
    simp at this

/-- The groups captured by the section pattern never contain a newline. -/
theorem reSection_no_newline (l num title : List Char)
    (h : reSection l = some (num, title)) : '\n' ∉ num ∧ '\n' ∉ title := by
  unfold reSection at h
  dsimp only at h
  repeat' split at h
  all_goals try (simp at h)
  rename_i t hrt
  obtain ⟨h1, h2⟩ := h
  subst h1
  subst h2
  constructor
  · intro hmem
    have := List.mem_takeWhile_imp hmem
    simp at this
  · exact reTailCapture_no_newline _ _ hrt

/-- The groups captured by the sub-section pattern never contain a
newline. -/
theorem reSubSection_no_newline (l num title : List Char)
    (h : reSubSection l = some (num, title)) : '\n' ∉ num ∧ '\n' ∉ title := by
  unfold reSubSection at h
  dsimp only at h
  repeat' split at h
  all_goals try (simp at h)
  rename_i t hrt
  obtain ⟨h1, h2⟩ := h
  subst h1
  subst h2
  constructor
  · intro hmem
    rw [List.mem_append] at hmem
    rcases hmem with hm1 | hm2
    · have := List.mem_takeWhile_imp hm1
      simp at this
    · rw [List.mem_cons] at hm2
      rcases hm2 with he | hm3
      · simp at he
      · have := List.mem_takeWhile_imp hm3
        simp at this
  · exact reTailCapture_no_newline _ _ hrt

/-- When no input line contains a newline, the loop emits lines without
newlines. -/
theorem fmtLoop_no_newline :
    ∀ (n : Nat) (lines : List String), lines.length ≤ n →
      (∀ l ∈ lines, '\n' ∉ l.data) →
      ∀ e ∈ fmtLoop lines, '\n' ∉ e.data := by
  intro n
  induction n with
  | zero =>
    intro lines hl hyp e he
    rw [List.length_eq_zero.mp (Nat.le_zero.mp hl)] at he
    simp [fmtLoop] at he
  | succ n ih =>
    intro lines hl hyp e he
    cases lines with
    | nil => simp [fmtLoop] at he
    | cons raw rest =>
      simp only [List.length_cons, Nat.succ_le_succ_iff] at hl
      have hypr : ∀ l ∈ rest, '\n' ∉ l.data :=
        fun l hml => hyp l (List.mem_cons_of_mem _ hml)
      have hypd : ∀ l ∈ rest.dropWhile lookCond, '\n' ∉ l.data :=
        fun l hml => hypr l (List.dropWhile_subset lookCond hml)
      have ihr := ih rest hl hypr
      have ihd := ih (rest.dropWhile lookCond)
        (Nat.le_trans (List.dropWhile_sublist lookCond).length_le hl) hypd
      have hraw : '\n' ∉ (pyStrip raw).data :=
        fun hm => hyp raw (List.mem_cons_self _ _) (mem_stripL raw.data _ hm)
      have htaken : ∀ a ∈ rest.takeWhile lookCond, '\n' ∉ a.data :=
        fun a ha => hypr a (List.takeWhile_subset lookCond ha)
      rw [fmtLoop.eq_def] at he
      dsimp only at he
      by_cases h1 : pyStrip raw = ""
      · rw [if_pos h1] at he
        exact ihr e he
      rw [if_neg h1] at he
      by_cases h2 : (pyContains (pyStrip raw) "ADR-015" &&
          pyContains (pyStrip raw) "Moneta Network Authentication") = true
      · rw [if_pos h2] at he
        exact ihr e he
      rw [if_neg h2] at he
      by_cases h3 : pyStartsWith (pyStrip raw) "Status:" = true
      · rw [if_pos h3] at he
        rcases List.mem_cons.mp he with rfl | he2
        · intro hm
          simp +decide [String.data_append] at hm
          exact hraw hm
        rcases List.mem_cons.mp he2 with rfl | he3
        · simp
        · exact ihr e he3
      rw [if_neg h3] at he
      by_cases h4 : pyStartsWith (pyStrip raw) "Date:" = true
      · rw [if_pos h4] at he
        rcases List.mem_cons.mp he with rfl | he2
        · intro hm
          simp +decide [String.data_append] at hm
          exact hraw hm
        rcases List.mem_cons.mp he2 with rfl | he3
        · simp
        · exact ihr e he3
      rw [if_neg h4] at he
      cases hsec : reSection (pyStrip raw).data with
      | some nt =>
        obtain ⟨num, title⟩ := nt
        rw [hsec] at he
        dsimp only at he
        rcases List.mem_cons.mp he with rfl | he2
        · intro hm
          simp +decide [String.data_append] at hm
          have hnn := reSection_no_newline _ _ _ hsec
          rcases hm with hm1 | hm1
          · exact hnn.1 hm1
          · exact hnn.2 hm1
        rcases List.mem_cons.mp he2 with rfl | he3
        · simp
        · exact ihr e he3
      | none =>
      rw [hsec] at he
      dsimp only at he
      cases hsub : reSubSection (pyStrip raw).data with
      | some nt =>
        obtain ⟨num, title⟩ := nt
        rw [hsub] at he
        dsimp only at he
        rcases List.mem_cons.mp he with rfl | he2
        · intro hm
          simp +decide [String.data_append] at hm
          have hnn := reSubSection_no_newline _ _ _ hsub
          rcases hm with hm1 | hm1
          · exact hnn.1 hm1
          · exact hnn.2 hm1
        rcases List.mem_cons.mp he2 with rfl | he3
        · simp
        · exact ihr e he3
      | none =>
      rw [hsub] at he
      dsimp only at he
      by_cases h5 : (headerKeywords.any fun k => pyStartsWith (pyStrip raw) k) = true
      · rw [if_pos h5] at he
        rcases List.mem_cons.mp he with rfl | he2
        · intro hm
          simp +decide [String.data_append] at hm
          exact hraw hm
        rcases List.mem_cons.mp he2 with rfl | he3
        · simp
        · exact ihr e he3
      rw [if_neg h5] at he
      by_cases h6 : reTechLabel (pyStrip raw).data = true ∧ (pyStrip raw).data.length < 50
      · rw [if_pos h6] at he
        rcases List.mem_cons.mp he with rfl | he2
        · intro hm
          simp +decide [String.data_append] at hm
          exact hraw hm
        rcases List.mem_cons.mp he2 with rfl | he3
        · simp
        · exact ihr e he3
      rw [if_neg h6] at he
      by_cases h7 : listItemCond (pyStrip raw) = true
      · rw [if_pos h7] at he
        rcases List.mem_cons.mp he with rfl | he2
        · exact hraw
        · exact ihr e he2
      rw [if_neg h7] at he
      by_cases h8 : diagCond (pyStrip raw) = true
      · rw [if_pos h8] at he
        by_cases h9 : pyContains (pyStrip raw) "sequenceDiagram" = true
        · rw [if_pos h9] at he
          rcases List.mem_cons.mp he with rfl | he2
          · simp
          rcases List.mem_cons.mp he2 with rfl | he3
          · exact hraw
          rcases List.mem_append.mp he3 with he4 | he4
          · exact htaken e he4
          rcases List.mem_cons.mp he4 with rfl | he5
          · simp
          rcases List.mem_cons.mp he5 with rfl | he6
          · simp
          · exact ihd e he6
        · rw [if_neg h9] at he
          rcases List.mem_cons.mp he with rfl | he2
          · exact hraw
          rcases List.mem_append.mp he2 with he3 | he3
          · exact htaken e he3
          · exact ihd e he3
      rw [if_neg h8] at he
      rcases List.mem_cons.mp he with rfl | he2
      · exact hraw
      rcases List.mem_cons.mp he2 with rfl | he3
      · simp
      · exact ihr e he3

/-- Rebuilding a string from its data is the identity. -/
theorem string_mk_data (s : String) : String.mk s.data = s := rfl

/-- Splitting on newline leaves a newline-free list untouched. -/
theorem splitL_no_sep (x : List Char) (hx : '\n' ∉ x) : splitL ['\n'] x = [x] := by
  induction x with
  | nil => simp [splitL]
  | cons c r ih =>
    have hc : ('\n' == c) = false := by
      simp only [beq_eq_false_iff_ne, ne_eq]
      intro he
      exact hx (by rw [he]; exact List.mem_cons_self _ _)
    have hxr : '\n' ∉ r := fun hm => hx (List.mem_cons_of_mem _ hm)
    rw [splitL.eq_def]
    simp only [reduceCtorEq, ↓reduceDIte, prefixB, hc, Bool.false_and, Bool.false_eq_true,
      ↓reduceIte, ih hxr]

/-- Splitting on newline recovers the first newline-separated block. -/
theorem splitL_append (x r : List Char) (hx : '\n' ∉ x) :
    splitL ['\n'] (x ++ '\n' :: r) = x :: splitL ['\n'] r := by
  induction x with
  | nil =>
    rw [splitL.eq_def]
    simp [prefixB]
  | cons c x2 ih =>
    have hc : ('\n' == c) = false := by
      simp only [beq_eq_false_iff_ne, ne_eq]
      intro he
      exact hx (by rw [he]; exact List.mem_cons_self _ _)
    have hx2 : '\n' ∉ x2 := fun hm => hx (List.mem_cons_of_mem _ hm)
    rw [splitL.eq_def]
    simp only [List.cons_append, reduceCtorEq, ↓reduceDIte, prefixB, hc, Bool.false_and,
      Bool.false_eq_true, ↓reduceIte, ih hx2]

/-- Splitting the newline join of newline-free parts recovers the
parts. -/
theorem pySplit_pyJoin :
    ∀ (L : List String), L ≠ [] → (∀ e ∈ L, '\n' ∉ e.data) →
      pySplit "\n" (pyJoin "\n" L) = L := by
  intro L
  induction L with
  | nil =>
    intro hne
    exact absurd rfl hne
  | cons x t ih =>
    intro hne hfree
    cases t with
    | nil =>
      show (splitL "\n".data (joinL "\n".data [x.data])).map String.mk = [x]
      have hx : '\n' ∉ x.data := hfree x (List.mem_cons_self _ _)
      have h1 : joinL "\n".data [x.data] = x.data := rfl
      rw [h1]
      have h2 : ("\n".data : List Char) = ['\n'] := rfl
      rw [h2, splitL_no_sep x.data hx]
      simp [string_mk_data]
    | cons y t2 =>
      show (splitL "\n".data (joinL "\n".data (x.data :: (y :: t2).map String.data))).map
          String.mk = x :: y :: t2
      have hx : '\n' ∉ x.data := hfree x (List.mem_cons_self _ _)
      have h1 : joinL "\n".data (x.data :: (y :: t2).map String.data) =
          x.data ++ '\n' :: joinL "\n".data ((y :: t2).map String.data) := by
        show x.data ++ "\n".data ++ joinL "\n".data ((y :: t2).map String.data) = _
        simp
      rw [h1]
      have h2 : ("\n".data : List Char) = ['\n'] := rfl
      rw [h2, splitL_append _ _ hx]
      have ht := ih (by simp) (fun e he => hfree e (List.mem_cons_of_mem _ he))
      show String.mk x.data ::
          (splitL "\n".data (joinL "\n".data ((y :: t2).map String.data))).map String.mk =
        x :: y :: t2
      rw [string_mk_data]
      have ht2 : (splitL "\n".data (joinL "\n".data ((y :: t2).map String.data))).map
          String.mk = y :: t2 := ht
      rw [ht2]

/-- C10, amended: for inputs in which no line strips to a fence marker and
no line contains a newline, the output of format_as_proper_markdown, read
back as a list of lines, has equally many opening and closing mermaid
markers, alternating with each opener before its matching closer. -/
theorem C10_fences_amended (lines : List String)
    (h : ∀ l ∈ lines, pyStrip l ≠ "```" ∧ pyStrip l ≠ "```mermaid" ∧ '\n' ∉ l.data) :
    altFence (fenceLines (pySplit "\n" (format_as_proper_markdown lines))) = true := by
  have hL : pySplit "\n" (format_as_proper_markdown lines) =
      format_as_proper_markdown_lines lines := by
    apply pySplit_pyJoin
    · simp [format_as_proper_markdown_lines]
    · intro e he
      rcases List.mem_cons.mp he with rfl | he2
      · decide
      rcases List.mem_cons.mp he2 with rfl | he3
      · decide
      · exact fmtLoop_no_newline lines.length lines (Nat.le_refl _)
          (fun l hl => (h l hl).2.2) e he3
  rw [hL]
  show altFence (fenceLines
    ("# ADR-015: Moneta Network Authentication and Identification" :: "" :: fmtLoop lines)) = true
  rw [fenceLines_cons_of_not _ _ (by decide), fenceLines_cons_of_not _ _ (by decide)]
  exact fmtLoop_fences lines.length lines (Nat.le_refl _)
    (fun l hl => ⟨(h l hl).1, (h l hl).2.1⟩)

/-- C10, counterexample: an input line consisting of a bare fence marker,
or hiding one behind an embedded newline, is copied into the output, where
it forms an unmatched closing fence, refuting the unconditional claim. -/
theorem C10_counterexample :
    altFence (fenceLines (pySplit "\n" (format_as_proper_markdown ["```"]))) = false ∧
    altFence (fenceLines (pySplit "\n" (format_as_proper_markdown ["a\n```"]))) = false := by
  constructor <;>
    simp +decide [format_as_proper_markdown, format_as_proper_markdown_lines, fmtLoop,
      pyJoin, joinL, pySplit, splitL, fenceLines, altFence, pyStrip, stripL, pyWs]

/-- C10, witness: a concrete input satisfying the amended hypotheses whose
output has balanced fences. -/
theorem C10_witness :
    altFence (fenceLines (pySplit "\n"
      (format_as_proper_markdown ["sequenceDiagram", "A->B", "done"]))) = true :=
  C10_fences_amended ["sequenceDiagram", "A->B", "done"] (by decide)
